import Mathlib

/-!
# A shallow embedding of `scripts/build_research_bigten_completions.py`

The script is a single linear pandas pipeline.  We embed it as follows:

* text is `List Char`;
* a pandas cell is a `PyVal`: missing (`vNone`), text (`vStr`), or a
  numeric value (`vNum`);
* Python numbers are modelled as exact decimals `Dec` (value
  `m * 10 ^ (-e)`).  Every number this script's data paths touch is a
  short decimal literal, on which binary doubles and exact decimals
  agree; the special float spellings (`inf`, `nan` literals with
  underscores, hexadecimal) are outside the modelled data domain;
* a dataframe is a list of typed rows; the optional allow-list file,
  whose column names the code inspects, is a named-column frame;
* fallible steps return `Except (List Char) _`; "the CSV file is
  written" is modelled by `build` returning `Except.ok`.
-/

/-- An exact decimal number: the value `m * 10 ^ (-e)`. -/
structure Dec where
  m : Int
  e : Int
  deriving DecidableEq, Repr

/-- A pandas cell: missing, text, or numeric. -/
inductive PyVal where
  | vNone : PyVal
  | vStr : List Char → PyVal
  | vNum : Dec → PyVal
  deriving DecidableEq, Repr

/-! ## Python string primitives -/

/-- ASCII decimal digit test (the `\d` of the script's regexes and the
digit class used by `float()` on its data domain). -/
def isDig (c : Char) : Bool :=
  c == '0' || c == '1' || c == '2' || c == '3' || c == '4' ||
  c == '5' || c == '6' || c == '7' || c == '8' || c == '9'

def isSpace (c : Char) : Bool := c.isWhitespace

def dropTrailWhile (p : Char → Bool) (l : List Char) : List Char :=
  (l.reverse.dropWhile p).reverse

/-- Python `str.strip()`: whitespace removed from both ends. -/
def pyStrip (l : List Char) : List Char :=
  dropTrailWhile isSpace (l.dropWhile isSpace)

/-- ASCII lower-casing, as `str.lower()` acts on this script's data. -/
def asciiLower (c : Char) : Char :=
  if 'A' ≤ c ∧ c ≤ 'Z' then Char.ofNat (c.toNat + 32) else c

def pyLower (l : List Char) : List Char := l.map asciiLower

def padZeros (w : Nat) (l : List Char) : List Char :=
  List.replicate (w - l.length) '0' ++ l

/-- Python `str.zfill(w)`: left-pad with zeros; a leading sign stays in
front of the padding. -/
def pyZfill (w : Nat) (l : List Char) : List Char :=
  match l with
  | c :: rest => if c = '-' ∨ c = '+' then c :: padZeros (w - 1) rest else padZeros w l
  | [] => padZeros w []

/-- Python `s.split(".", 1)`: the part before the first dot and, when a
dot occurs, everything after it. -/
def pySplitDot : List Char → List Char × Option (List Char)
  | [] => ([], none)
  | c :: rest =>
    if c = '.' then ([], some rest)
    else
      let r := pySplitDot rest
      (c :: r.1, r.2)

/-! ## Decimal rendering and parsing -/

def digitChar (d : Nat) : Char :=
  match d % 10 with
  | 0 => '0' | 1 => '1' | 2 => '2' | 3 => '3' | 4 => '4'
  | 5 => '5' | 6 => '6' | 7 => '7' | 8 => '8' | _ => '9'

def natDigitsAux : Nat → Nat → List Char
  | 0, _ => []
  | fuel + 1, n => if n = 0 then [] else natDigitsAux fuel (n / 10) ++ [digitChar n]

/-- Base-10 digits of a natural number. -/
def natDigits (n : Nat) : List Char :=
  if n = 0 then ['0'] else natDigitsAux (n + 1) n

def intDigits (i : Int) : List Char :=
  if i < 0 then '-' :: natDigits i.natAbs else natDigits i.natAbs

def tenPow (k : Nat) : Int := (10 : Int) ^ k

/-- Round half to even of `a / b` for `b > 0` (the rounding used by
Python's fixed-point float formatting). -/
def rhe (a b : Int) : Int :=
  let q := Int.ediv a b
  let r := Int.emod a b
  if 2 * r < b then q
  else if 2 * r > b then q + 1
  else if q % 2 = 0 then q else q + 1

/-- The value scaled to an integer number of 1/10000ths, rounded. -/
def fmt4Scaled (d : Dec) : Int :=
  if d.e ≤ 4 then d.m * tenPow (4 - d.e).toNat else rhe d.m (tenPow (d.e - 4).toNat)

/-- The four fractional digits of `a` 1/10000ths. -/
def fracDigits4 (a : Nat) : List Char :=
  [digitChar (a / 1000), digitChar (a / 100), digitChar (a / 10), digitChar a]

/-- Python `f"{f:.4f}"` on the decimal value `d`. -/
def fmt4 (d : Dec) : List Char :=
  if fmt4Scaled d < 0 then
    '-' :: (natDigits ((fmt4Scaled d).natAbs / 10000) ++ '.' :: fracDigits4 (fmt4Scaled d).natAbs)
  else
    natDigits ((fmt4Scaled d).natAbs / 10000) ++ '.' :: fracDigits4 (fmt4Scaled d).natAbs

def splitDigits (l : List Char) : List Char × List Char :=
  (l.takeWhile isDig, l.dropWhile isDig)

def digitsVal (l : List Char) : Nat :=
  l.foldl (fun acc c => 10 * acc + (c.toNat - 48)) 0

def pySign : List Char → Int × List Char
  | [] => (1, [])
  | c :: rest =>
    if c = '+' then (1, rest) else if c = '-' then (-1, rest) else (1, c :: rest)

/-- The optional exponent tail of a float literal (`e`/`E`, optional
sign, digits, end of string). -/
def parseExpPart (sgn : Int) (mant : Nat) (fracLen : Nat) : List Char → Option Dec
  | [] => some ⟨sgn * (mant : Int), (fracLen : Int)⟩
  | c :: rest =>
    if c = 'e' ∨ c = 'E' then
      let sr := pySign rest
      let ed := splitDigits sr.2
      if ed.1.isEmpty || !ed.2.isEmpty then none
      else some ⟨sgn * (mant : Int), (fracLen : Int) - sr.1 * (digitsVal ed.1 : Int)⟩
    else none

/-- Python `float(s)` on an already-stripped decimal literal:
`[sign] (digits [. digits] | digits . | . digits) [(e|E) [sign] digits]`. -/
def pyParseFloat (l : List Char) : Option Dec :=
  let sl := pySign l
  let ip := splitDigits sl.2
  match ip.2 with
  | c :: rest =>
    if c = '.' then
      let fp := splitDigits rest
      if ip.1.isEmpty && fp.1.isEmpty then none
      else parseExpPart sl.1 (digitsVal (ip.1 ++ fp.1)) fp.1.length fp.2
    else if ip.1.isEmpty then none
    else parseExpPart sl.1 (digitsVal ip.1) 0 (c :: rest)
  | [] => if ip.1.isEmpty then none else parseExpPart sl.1 (digitsVal ip.1) 0 []

/-! ## The script's two text utilities -/

/-- The split/pad/truncate tail of `format_cipcode`:
`left, *rest = s.split(".", 1); left = left.zfill(2)`, and when a right
part exists, `right = (rest[0] + "0000")[:4]`, giving `left.right`. -/
def cipSplitCombine (s : List Char) : List Char :=
  let p := pySplitDot s
  let left := pyZfill 2 p.1
  match p.2 with
  | some r => left ++ '.' :: (r ++ "0000".data).take 4
  | none => left

/-- The function `format_cipcode` from the script.  A numeric cell passes through
`str(val)` and `float(s)`, which round-trip to the same value, so that
branch applies the `.4f` formatting directly. -/
def format_cipcode : PyVal → Option (List Char)
  | .vNone => none
  | .vNum d => some (cipSplitCombine (fmt4 d))
  | .vStr s0 =>
    let s := pyStrip s0
    if s.isEmpty then none
    else if pyLower s = "nan".data then none
    else
      let s1 := match pyParseFloat s with
        | some d => fmt4 d
        | none => s
      some (cipSplitCombine s1)

/-- The regex pass of `clean_excel_text_wrapper`:
`re.sub(r'^="?|"$', "", s)` removes one leading `="` (or bare `=`) and
one trailing `"`. -/
def stripWrapMarks (s : List Char) : List Char :=
  let t := match s with
    | [] => s
    | [c1] => if c1 = '=' then [] else s
    | c1 :: c2 :: rest =>
      if c1 = '=' then (if c2 = '"' then rest else c2 :: rest) else s
  if t.getLast? = some '"' then t.dropLast else t

/-- The function `clean_excel_text_wrapper` on one cell's text: strip, remove the
Excel-safe wrapper marks, strip again. -/
def clean_excel_text_wrapper (s : List Char) : List Char :=
  pyStrip (stripWrapMarks (pyStrip s))

/-- Full match of the regex `\d{2}\.\d{4}`. -/
def isCip6Chars (s : List Char) : Bool :=
  match s with
  | [a, b, c, d1, d2, d3, d4] =>
    isDig a && isDig b && c == '.' && isDig d1 && isDig d2 && isDig d3 && isDig d4
  | _ => false

example : format_cipcode (.vNum ⟨30104, 4⟩) = some "03.0104".data := by decide
example : format_cipcode (.vStr "03.0104".data) = some "03.0104".data := by decide
example : format_cipcode (.vStr "  nan ".data) = none := by decide
example : format_cipcode (.vStr "abc".data) = some "abc".data := by decide
example : format_cipcode (.vNum ⟨100, 0⟩) = some "100.0000".data := by decide
example : clean_excel_text_wrapper "=\"01.0101\"".data = "01.0101".data := by decide
example : clean_excel_text_wrapper "\"\"".data = "\"".data := by decide
example : isCip6Chars "03.0104".data = true := by decide
example : isCip6Chars "100.0000".data = false := by decide

/-! ## Cell coercions -/

/-- Value equality of two exact decimals (pandas key equality for the
numeric cells this script merges and filters on). -/
def decEqVal (d1 d2 : Dec) : Bool :=
  let k := max d1.e d2.e
  d1.m * tenPow (k - d1.e).toNat == d2.m * tenPow (k - d2.e).toNat

def cellEq : PyVal → PyVal → Bool
  | .vNone, .vNone => true
  | .vStr a, .vStr b => a == b
  | .vNum a, .vNum b => decEqVal a b
  | _, _ => false

def decEqInt (d : Dec) (k : Int) : Bool := decEqVal d ⟨k, 0⟩

/-- Pandas `Series.isin(list_of_ints)` on one cell. -/
def cellInIntList (c : PyVal) (ids : List Int) : Bool :=
  match c with
  | .vNum d => ids.any fun k => decEqInt d k
  | _ => false

/-- Exact decimal rendering of a numeric value, Python-float style
(an integral value renders with a trailing `.0`). -/
def decRender (d : Dec) : List Char :=
  if d.e ≤ 0 then intDigits (d.m * tenPow (-d.e).toNat) ++ ".0".data
  else
    let p := (tenPow d.e.toNat).natAbs
    let a := d.m.natAbs
    let body := natDigits (a / p) ++ '.' :: padZeros d.e.toNat (natDigitsAux (a % p + 1) (a % p))
    if d.m < 0 then '-' :: body else body

/-- Pandas `astype("string")` on one cell: missing stays missing. -/
def cellToStringOpt : PyVal → Option (List Char)
  | .vNone => none
  | .vStr s => some s
  | .vNum d => some (decRender d)

/-- Pandas `pd.to_numeric(·, errors="coerce")` on one cell. -/
def cellToNum : PyVal → Option Dec
  | .vNone => none
  | .vNum d => some d
  | .vStr s => pyParseFloat (pyStrip s)

/-- Pandas `astype("Int64")` on an exact numeric value.  (The claims only
exercise integral values; pandas raises on a fractional one, which the
pure model maps to a missing value.) -/
def decToIntExact (d : Dec) : Option Int :=
  if d.e ≤ 0 then some (d.m * tenPow (-d.e).toNat)
  else
    let p := tenPow d.e.toNat
    if d.m % p = 0 then some (d.m / p) else none

def cellToIntOpt (c : PyVal) : Option Int :=
  (cellToNum c).bind decToIntExact

/-- numpy `astype(int)`: truncation toward zero. -/
def decTrunc (d : Dec) : Int :=
  if d.e ≤ 0 then d.m * tenPow (-d.e).toNat
  else
    let q := d.m.natAbs / (tenPow d.e.toNat).natAbs
    if d.m < 0 then -(q : Int) else (q : Int)

/-! ## Dataframes -/

structure CompletionRow where
  UNITID : PyVal
  CIPCODE : PyVal
  MAJORNUM : PyVal
  AWLEVEL : PyVal
  CTOTALT : PyVal
  deriving DecidableEq, Repr

structure HdRow where
  UNITID : PyVal
  INSTNM : PyVal
  deriving DecidableEq, Repr

structure CipRow where
  CIPCode : PyVal
  CIPTitle : PyVal
  CIPFamily : PyVal
  deriving DecidableEq, Repr

/-- The research schema after projection, renaming and dtype coercion
(pipeline step 4-5), before the taxonomy joins. -/
structure BaseRow where
  unitid : Option Int
  institution : Option (List Char)
  cipcode : Option (List Char)
  cip2 : Option (List Char)
  major_number : Option Int
  award_level_code : Option Int
  award_count_total : Option Int
  deriving DecidableEq, Repr

/-- The final twelve-column research schema. -/
structure ResearchRow where
  unitid : Option Int
  institution : Option (List Char)
  cip2 : Option (List Char)
  cip2_title : Option (List Char)
  cipcode : Option (List Char)
  cip6_title : Option (List Char)
  is_cip6 : Bool
  major_number : Option Int
  award_level_code : Option Int
  award_level_name : Option (List Char)
  degree_group : Option (List Char)
  award_count_total : Option Int
  deriving DecidableEq, Repr

/-! ## Generic relational helpers -/

def dedupAux (eq : α → α → Bool) : List α → List α → List α
  | _, [] => []
  | seen, a :: as =>
    if seen.any (fun b => eq b a) then dedupAux eq seen as
    else a :: dedupAux eq (a :: seen) as

/-- Pandas `drop_duplicates()`: keep the first occurrence of each key. -/
def dedupKeepFirst (eq : α → α → Bool) (l : List α) : List α := dedupAux eq [] l

def insertByLe (le : α → α → Bool) (a : α) : List α → List α
  | [] => [a]
  | b :: bs => if le a b then a :: b :: bs else b :: insertByLe le a bs

/-- Pandas `sort_values` (stable insertion sort; ties keep input order). -/
def sortByLe (le : α → α → Bool) (l : List α) : List α := l.foldr (insertByLe le) []

def lexLe : List Char → List Char → Bool
  | [], _ => true
  | _ :: _, [] => false
  | a :: as, b :: bs => if a = b then lexLe as bs else decide (a.toNat < b.toNat)

/-- A pandas left merge against a lookup of (key, value) pairs: every
match produces a row; no match keeps the row with a missing value. -/
def leftJoinOpt (rows : List α) (key : α → Option (List Char)) (lk : List (List Char × List Char)) :
    List (α × Option (List Char)) :=
  rows.flatMap fun r =>
    let ms := lk.filter fun p => decide (key r = some p.1)
    if ms.isEmpty then [(r, none)] else ms.map fun p => (r, some p.2)

/-! ## The pipeline -/

def cip2Of (s : List Char) : List Char := pyZfill 2 (pySplitDot s).1

def awardLevelName (c : Option Int) : Option (List Char) :=
  match c with
  | some 5 => some "Bachelors".data
  | some 7 => some "Masters".data
  | some 17 => some "Doctoral (Research/Scholarship)".data
  | _ => none

def degreeGroup (c : Option Int) : Option (List Char) :=
  match c with
  | some 5 => some "Bachelors".data
  | some 7 => some "Graduate".data
  | some 17 => some "Graduate".data
  | _ => none

/-- Steps 2-12 of `build`: merge institution names, filter to the
allow-list, project/rename/coerce, normalize the CIP code, build the
two taxonomy lookups, left-join them, fill the two title columns and
derive the award and CIP6 columns. -/
def transform (df : List CompletionRow) (hd : List HdRow) (cip : List CipRow)
    (unitids : List Int) : List ResearchRow :=
  let hdNames := dedupKeepFirst (fun a b => cellEq a.1 b.1 && cellEq a.2 b.2)
    (hd.map fun h => (h.UNITID, h.INSTNM))
  let merged : List (CompletionRow × PyVal) :=
    df.flatMap fun r =>
      let ms := hdNames.filter fun p => cellEq r.UNITID p.1
      if ms.isEmpty then [(r, PyVal.vNone)] else ms.map fun p => (r, p.2)
  let filtered := merged.filter fun rp => cellInIntList rp.1.UNITID unitids
  let base : List BaseRow := filtered.map fun rp =>
    let code := format_cipcode rp.1.CIPCODE
    { unitid := cellToIntOpt rp.1.UNITID,
      institution := cellToStringOpt rp.2,
      cipcode := code,
      cip2 := code.map cip2Of,
      major_number := cellToIntOpt rp.1.MAJORNUM,
      award_level_code := cellToIntOpt rp.1.AWLEVEL,
      award_count_total := cellToIntOpt rp.1.CTOTALT }
  let cipBase := cip.map fun r =>
    ((cellToStringOpt r.CIPCode).map clean_excel_text_wrapper,
     (cellToStringOpt r.CIPTitle).map pyStrip,
     (cellToStringOpt r.CIPFamily).map pyStrip)
  let cip2Lookup := sortByLe (fun a b => lexLe a.1 b.1)
    (dedupKeepFirst (fun a b => a.1 == b.1 && a.2 == b.2)
      (cipBase.filterMap fun t =>
        match t.1.map cip2Of, t.2.2 with
        | some a, some b => some (a, b)
        | _, _ => none))
  let cip6Lookup := (dedupKeepFirst (fun a b => a.1 == b.1 && a.2 == b.2)
      (cipBase.filterMap fun t =>
        match t.1, t.2.1 with
        | some a, some b => some (a, b)
        | _, _ => none)).filter fun p => isCip6Chars p.1
  let j2 := leftJoinOpt base (fun r => r.cip2) cip2Lookup
  let j6 := leftJoinOpt j2 (fun r => r.1.cipcode) cip6Lookup
  j6.map fun t =>
    { unitid := t.1.1.unitid,
      institution := t.1.1.institution,
      cip2 := t.1.1.cip2,
      cip2_title := some ((t.1.2).getD "99 - Unclassified / Not in CIP taxonomy".data),
      cipcode := t.1.1.cipcode,
      cip6_title := some ((t.2).getD "Not a CIP6 program (aggregate / unclassified)".data),
      is_cip6 := match t.1.1.cipcode with
        | some s => isCip6Chars s
        | none => false,
      major_number := t.1.1.major_number,
      award_level_code := t.1.1.award_level_code,
      award_level_name := awardLevelName t.1.1.award_level_code,
      degree_group := degreeGroup t.1.1.award_level_code,
      award_count_total := t.1.1.award_count_total }

/-! ## The allow-list loader -/

/-- The optional allow-list file: column names with their cells. -/
structure AllowFrame where
  cols : List (List Char × List PyVal)
  deriving Repr

/-- The loader's input: no `--bigten-unitids-path` argument, a path that
does not exist, or a readable file. -/
inductive AllowArg where
  | noPath
  | missingFile
  | file (f : AllowFrame)

def getColumn (f : AllowFrame) (name : List Char) : Option (List PyVal) :=
  (f.cols.find? fun p => p.1 == name).map fun p => p.2

def BIGTEN_UNITIDS : List Int :=
  [151351, 171100, 147767, 204796, 214777, 243780, 186380, 110662, 145637,
   153658, 163286, 170976, 174066, 181464, 209551, 123961, 236948, 240444]

def coerceIds (vals : List PyVal) : List Int :=
  vals.filterMap fun c => (cellToNum c).map decTrunc

/-- The function `load_bigten_unitids` from the script. -/
def load_bigten_unitids : AllowArg → Except (List Char) (List Int)
  | .noPath => .ok BIGTEN_UNITIDS
  | .missingFile => .ok BIGTEN_UNITIDS
  | .file f =>
    match (getColumn f "UNITID".data).orElse (fun _ => getColumn f "unitid".data) with
    | none => .error "Big Ten UNITID file missing UNITID column".data
    | some vals =>
      let ids := coerceIds vals
      .ok (if ids.isEmpty then BIGTEN_UNITIDS else ids)

/-! ## Guardrails and `build` -/

/-- The count `research_final["unitid"].nunique()` (missing values not counted). -/
def nInst (out : List ResearchRow) : Nat :=
  (dedupKeepFirst (fun a b => a == b) (out.filterMap fun r => r.unitid)).length

def missingCip2Count (out : List ResearchRow) : Nat :=
  (out.filter fun r => r.cip2_title.isNone).length

def missingCip6TrueCount (out : List ResearchRow) : Nat :=
  (out.filter fun r => r.is_cip6 && r.cip6_title.isNone).length

/-- The orchestrator `build`: load the allow-list, transform, run the three guardrails in
order, and only then "write" (return `Except.ok` with) the output. -/
def build (df : List CompletionRow) (hd : List HdRow) (cip : List CipRow)
    (allow : AllowArg) : Except (List Char) (List ResearchRow) :=
  match load_bigten_unitids allow with
  | .error e => .error e
  | .ok ids =>
    let out := transform df hd cip ids
    if nInst out ≠ 18 then
      .error ("Expected 18 Big Ten institutions, got ".data ++ natDigits (nInst out))
    else if missingCip2Count out ≠ 0 then
      .error ("Unexpected missing cip2_title count: ".data ++ natDigits (missingCip2Count out))
    else if missingCip6TrueCount out ≠ 0 then
      .error ("Missing cip6_title for true CIP6 codes: ".data ++ natDigits (missingCip6TrueCount out))
    else .ok out

/-! ## Concrete scenarios -/

/-- The spec's end-to-end scenario: one completions row. -/
def scnDf : List CompletionRow :=
  [{ UNITID := .vNum ⟨151351, 0⟩, CIPCODE := .vNum ⟨30104, 4⟩, MAJORNUM := .vNum ⟨1, 0⟩,
     AWLEVEL := .vNum ⟨5, 0⟩, CTOTALT := .vNum ⟨12, 0⟩ }]

def scnHd : List HdRow :=
  [{ UNITID := .vNum ⟨151351, 0⟩, INSTNM := .vStr "Indiana University-Bloomington".data }]

def scnCip : List CipRow :=
  [{ CIPCode := .vStr "=\"03.0104\"".data,
     CIPTitle := .vStr "Computer and Information Sciences, General.".data,
     CIPFamily := .vStr "Computer and Information Sciences".data }]

/-- The output row the scenario's transform produces. -/
def scnRow : ResearchRow :=
  { unitid := some 151351,
    institution := some "Indiana University-Bloomington".data,
    cip2 := some "03".data,
    cip2_title := some "Computer and Information Sciences".data,
    cipcode := some "03.0104".data,
    cip6_title := some "Computer and Information Sciences, General.".data,
    is_cip6 := true,
    major_number := some 1,
    award_level_code := some 5,
    award_level_name := some "Bachelors".data,
    degree_group := some "Bachelors".data,
    award_count_total := some 12 }

/-- An 18-institution variant of the scenario that passes the guardrails. -/
def fullDf : List CompletionRow :=
  BIGTEN_UNITIDS.map fun u =>
    { UNITID := .vNum ⟨u, 0⟩, CIPCODE := .vNum ⟨30104, 4⟩, MAJORNUM := .vNum ⟨1, 0⟩,
      AWLEVEL := .vNum ⟨5, 0⟩, CTOTALT := .vNum ⟨12, 0⟩ }

/-- 18 institutions whose CIP code is the integer-valued float `100`. -/
def intCodeDf : List CompletionRow :=
  BIGTEN_UNITIDS.map fun u =>
    { UNITID := .vNum ⟨u, 0⟩, CIPCODE := .vNum ⟨100, 0⟩, MAJORNUM := .vNum ⟨1, 0⟩,
      AWLEVEL := .vNum ⟨5, 0⟩, CTOTALT := .vNum ⟨12, 0⟩ }

def intCodeOut : List ResearchRow := transform intCodeDf scnHd scnCip BIGTEN_UNITIDS

deriving instance DecidableEq for Except

example : transform scnDf scnHd scnCip BIGTEN_UNITIDS = [scnRow] := by decide
example : build scnDf scnHd scnCip .noPath =
    .error "Expected 18 Big Ten institutions, got 1".data := by decide
example : (transform fullDf scnHd scnCip BIGTEN_UNITIDS).length = 18 := by decide
example : build fullDf scnHd scnCip .noPath =
    .ok (transform fullDf scnHd scnCip BIGTEN_UNITIDS) := by rfl
example : (intCodeOut.map fun r => r.is_cip6) = List.replicate 18 false := by decide
example : build intCodeDf scnHd scnCip .noPath = .ok intCodeOut := by rfl

/-! ## Lemmas: stripping is a projection -/

theorem dropWhile_self_idem (p : Char → Bool) (l : List Char) :
    (l.dropWhile p).dropWhile p = l.dropWhile p := by
  induction l with
  | nil => rfl
  | cons x xs ih =>
    by_cases h : p x
    · simp [List.dropWhile_cons, h, ih]
    · simp [List.dropWhile_cons, h]

theorem dropWhile_append_split (p : Char → Bool) (a b : List Char) :
    (a ++ b).dropWhile p =
      if (a.dropWhile p).isEmpty then b.dropWhile p else a.dropWhile p ++ b := by
  induction a with
  | nil => simp
  | cons x xs ih =>
    by_cases h : p x
    · simp [List.dropWhile_cons, h, ih]
    · simp [List.dropWhile_cons, h]

theorem dropTrailWhile_cons_of_neg (p : Char → Bool) (x : Char) (xs : List Char)
    (hx : p x = false) : ∃ ys, dropTrailWhile p (x :: xs) = x :: ys := by
  unfold dropTrailWhile
  rw [List.reverse_cons, dropWhile_append_split]
  by_cases h : (xs.reverse.dropWhile p).isEmpty
  · refine ⟨[], ?_⟩
    rw [if_pos h]
    simp [List.dropWhile_cons, hx]
  · refine ⟨(xs.reverse.dropWhile p).reverse, ?_⟩
    rw [if_neg h, List.reverse_append]
    simp

theorem dropWhile_length_le (p : Char → Bool) (l : List Char) :
    (l.dropWhile p).length ≤ l.length := by
  induction l with
  | nil => simp
  | cons x xs ih =>
    by_cases h : p x
    · rw [List.dropWhile_cons, if_pos h]
      exact le_trans ih (by simp)
    · rw [List.dropWhile_cons, if_neg (by simp [h])]

theorem dropWhile_dropTrail (p : Char → Bool) (m : List Char) (hm : m.dropWhile p = m) :
    (dropTrailWhile p m).dropWhile p = dropTrailWhile p m := by
  cases m with
  | nil => rfl
  | cons x xs =>
    have hx : p x = false := by
      cases hpx : p x with
      | false => rfl
      | true =>
        rw [List.dropWhile_cons, if_pos hpx] at hm
        have hlen := dropWhile_length_le p xs
        rw [hm] at hlen
        simp at hlen
    obtain ⟨ys, hys⟩ := dropTrailWhile_cons_of_neg p x xs hx
    rw [hys, List.dropWhile_cons, if_neg (by simp [hx])]

theorem dropTrailWhile_idem (p : Char → Bool) (l : List Char) :
    dropTrailWhile p (dropTrailWhile p l) = dropTrailWhile p l := by
  unfold dropTrailWhile
  rw [List.reverse_reverse, dropWhile_self_idem]

theorem pyStrip_idem (l : List Char) : pyStrip (pyStrip l) = pyStrip l := by
  unfold pyStrip
  rw [dropWhile_dropTrail isSpace (l.dropWhile isSpace) (dropWhile_self_idem _ _),
    dropTrailWhile_idem]

theorem stripWrapMarks_eq_self (s : List Char) (h1 : s.head? ≠ some '=')
    (h2 : s.getLast? ≠ some '"') : stripWrapMarks s = s := by
  cases s with
  | nil => rfl
  | cons c rest =>
    have hc : c ≠ '=' := fun hceq => h1 (by rw [hceq]; rfl)
    cases rest with
    | nil =>
      simp only [stripWrapMarks]
      rw [if_neg hc]
      exact if_neg h2
    | cons c2 rest2 =>
      simp only [stripWrapMarks]
      rw [if_neg hc]
      exact if_neg h2

/-! ## Claim C2: idempotence of the de-wrapper -/

/-- C2 (counterexample).  `clean_excel_text_wrapper` is not idempotent:
on the two-character string `""` one application leaves a single `"`
(the regex removes only the trailing quote), and a second application
removes that one too. -/
theorem C2_dewrap_not_idempotent_counterexample :
    clean_excel_text_wrapper (clean_excel_text_wrapper "\"\"".data) ≠
      clean_excel_text_wrapper "\"\"".data := by decide

/-- C2 (amended).  The de-wrapper is idempotent on every string whose
single application yields a result that neither starts with `=` nor
ends with `"`; on such input a second application changes nothing. -/
theorem C2_dewrap_idempotent_amended (s : List Char)
    (h1 : (clean_excel_text_wrapper s).head? ≠ some '=')
    (h2 : (clean_excel_text_wrapper s).getLast? ≠ some '"') :
    clean_excel_text_wrapper (clean_excel_text_wrapper s) =
      clean_excel_text_wrapper s := by
  have hst : pyStrip (clean_excel_text_wrapper s) = clean_excel_text_wrapper s := by
    unfold clean_excel_text_wrapper
    exact pyStrip_idem _
  show pyStrip (stripWrapMarks (pyStrip (clean_excel_text_wrapper s))) =
    clean_excel_text_wrapper s
  rw [hst, stripWrapMarks_eq_self _ h1 h2, hst]

theorem C2_dewrap_idempotent_amended_witness :
    (clean_excel_text_wrapper "=\"01.0101\"".data).head? ≠ some '=' ∧
    (clean_excel_text_wrapper "=\"01.0101\"".data).getLast? ≠ some '"' ∧
    clean_excel_text_wrapper (clean_excel_text_wrapper "=\"01.0101\"".data) =
      clean_excel_text_wrapper "=\"01.0101\"".data :=
  ⟨by decide, by decide, C2_dewrap_idempotent_amended "=\"01.0101\"".data (by decide) (by decide)⟩

/-! ## Lemmas about the dot split -/

theorem pySplitDot_eq (s : List Char) :
    pySplitDot s = (s.takeWhile (fun c => !(c == '.')),
      if '.' ∈ s then some ((s.dropWhile (fun c => !(c == '.'))).tail) else none) := by
  induction s with
  | nil => simp [pySplitDot]
  | cons c rest ih =>
    by_cases h : c = '.'
    · subst h
      simp [pySplitDot, List.takeWhile_cons, List.dropWhile_cons]
    · have h' : ¬ ('.' = c) := fun hh => h hh.symm
      simp [pySplitDot, List.takeWhile_cons, List.dropWhile_cons, h, h', ih]

theorem pySplitDot_no_dot (s : List Char) (h : '.' ∉ s) : pySplitDot s = (s, none) := by
  induction s with
  | nil => rfl
  | cons c rest ih =>
    have hc : ¬ c = '.' := fun hh => h (hh ▸ List.Mem.head rest)
    simp [pySplitDot, fun hh : c = '.' => hc hh, ih fun hm => h (List.Mem.tail c hm), hc]

theorem pySplitDot_append_dot (pre rest : List Char) (h : '.' ∉ pre) :
    pySplitDot (pre ++ '.' :: rest) = (pre, some rest) := by
  induction pre with
  | nil => simp [pySplitDot]
  | cons c cs ih =>
    have hc : ¬ c = '.' := fun hh => h (hh ▸ List.Mem.head cs)
    simp [pySplitDot, hc, ih fun hm => h (List.Mem.tail c hm)]

/-! ## Claim C3: the normalizer's contract, stated from the spec text -/

/-- The split/pad step as the spec words it: split on the first decimal
point; zero-pad the left part to 2 characters; if a right part exists,
right-pad it with zeros and truncate to exactly 4 characters. -/
def specAssemble (s : List Char) : List Char :=
  if '.' ∈ s then
    pyZfill 2 (s.takeWhile fun c => !(c == '.')) ++
      '.' :: ((s.dropWhile fun c => !(c == '.')).tail ++ "0000".data).take 4
  else pyZfill 2 (s.takeWhile fun c => !(c == '.'))

/-- The whole normalizer as the spec words it: missing, empty, or the
literal text "nan" give a missing value; float-parseable input is first
reformatted to exactly 4 decimal digits; then the split/pad step. -/
def normalizeSpec : PyVal → Option (List Char)
  | .vNone => none
  | .vNum d => some (specAssemble (fmt4 d))
  | .vStr s0 =>
    let s := pyStrip s0
    if s.isEmpty || pyLower s == "nan".data then none
    else
      some (specAssemble (match pyParseFloat s with
        | some d => fmt4 d
        | none => s))

theorem cipSplitCombine_eq_specAssemble (s : List Char) :
    cipSplitCombine s = specAssemble s := by
  unfold cipSplitCombine specAssemble
  rw [pySplitDot_eq]
  by_cases h : '.' ∈ s
  · simp [h]
  · simp [h]

/-- C3.  `format_cipcode` satisfies the spec's description of the
normalizer, and the two quoted instances hold. -/
theorem C3_normalizer_contract :
    (∀ v, format_cipcode v = normalizeSpec v) ∧
    format_cipcode (.vStr "03.0104".data) = some "03.0104".data ∧
    format_cipcode (.vNum ⟨30104, 4⟩) = some "03.0104".data := by
  refine ⟨?_, by decide, by decide⟩
  intro v
  cases v with
  | vNone => rfl
  | vNum d =>
    simp [format_cipcode, normalizeSpec, cipSplitCombine_eq_specAssemble]
  | vStr s0 =>
    simp only [format_cipcode, normalizeSpec]
    by_cases h1 : (pyStrip s0).isEmpty
    · simp [h1]
    · by_cases h2 : pyLower (pyStrip s0) = "nan".data
      · simp [h1, h2]
      · simp [h1, h2, cipSplitCombine_eq_specAssemble]

/-! ## Claim C1: the end-to-end scenario -/

/-- C1 (counterexample).  On the spec's one-row scenario `build` does
not succeed: the transformed table has 1 distinct institution, so the
first guardrail (which demands 18) aborts the run and nothing is
written. -/
theorem C1_scenario_aborts_counterexample :
    build scnDf scnHd scnCip AllowArg.noPath =
      .error "Expected 18 Big Ten institutions, got 1".data := by decide

/-- C1 (amended).  The transformation of the scenario does produce
exactly the one row the spec lists, but `build` then aborts at the
institution-count guardrail (1 ≠ 18) and writes no output. -/
theorem C1_scenario_amended :
    transform scnDf scnHd scnCip BIGTEN_UNITIDS = [scnRow] ∧
    build scnDf scnHd scnCip AllowArg.noPath =
      .error "Expected 18 Big Ten institutions, got 1".data := by decide

/-! ## Claim C7: totality of the normalizer -/

/-- C7.  On any non-missing input (nonempty after stripping and not the
literal text "nan") the normalizer returns a value, and when decimal
parsing fails and the text has no decimal point it falls back to the
left-only zero-padded code. -/
theorem C7_normalizer_total (s : List Char)
    (h1 : pyStrip s ≠ []) (h2 : pyLower (pyStrip s) ≠ "nan".data) :
    (∃ r, format_cipcode (.vStr s) = some r) ∧
    (pyParseFloat (pyStrip s) = none → '.' ∉ pyStrip s →
      format_cipcode (.vStr s) = some (pyZfill 2 (pyStrip s))) := by
  have hie : (pyStrip s).isEmpty = false := by
    cases hE : (pyStrip s).isEmpty
    · rfl
    · exact absurd (by simpa using hE) h1
  constructor
  · cases hp : pyParseFloat (pyStrip s) with
    | some d => exact ⟨cipSplitCombine (fmt4 d), by simp [format_cipcode, hie, h2, hp]⟩
    | none => exact ⟨cipSplitCombine (pyStrip s), by simp [format_cipcode, hie, h2, hp]⟩
  · intro hp hdot
    simp only [format_cipcode, hie, h2, hp]
    simp only [Bool.false_eq_true, if_false, if_neg h2]
    unfold cipSplitCombine
    rw [pySplitDot_no_dot _ hdot]

theorem C7_normalizer_total_witness :
    pyStrip "abc".data ≠ [] ∧ pyLower (pyStrip "abc".data) ≠ "nan".data ∧
    format_cipcode (.vStr "abc".data) = some (pyZfill 2 (pyStrip "abc".data)) :=
  ⟨by decide, by decide,
   (C7_normalizer_total "abc".data (by decide) (by decide)).2 (by decide) (by decide)⟩

/-! ## Lemmas about the left join and claims C4, C6 -/

theorem leftJoinOpt_mem {α : Type} {rows : List α} {key : α → Option (List Char)}
    {lk : List (List Char × List Char)} {x : α × Option (List Char)}
    (h : x ∈ leftJoinOpt rows key lk) :
    x.1 ∈ rows ∧
      (x.2 = none ∨ ∃ p ∈ lk, key x.1 = some p.1 ∧ x.2 = some p.2) := by
  simp only [leftJoinOpt] at h
  rw [List.mem_flatMap] at h
  obtain ⟨r, hr, hx⟩ := h
  split at hx
  · rw [List.mem_singleton] at hx
    subst hx
    exact ⟨hr, Or.inl rfl⟩
  · rw [List.mem_map] at hx
    obtain ⟨p, hp, hpx⟩ := hx
    subst hpx
    rcases List.mem_filter.mp hp with ⟨hplk, hpkey⟩
    exact ⟨hr, Or.inr ⟨p, hplk, of_decide_eq_true hpkey, rfl⟩⟩

/-- C4.  In every transformed row both title columns are filled: the
2-digit title is never missing, the 6-digit title is never missing, and
a row that is not a true 6-digit code carries the exact "not a CIP6
program" placeholder. -/
theorem C4_titles_never_missing (df : List CompletionRow) (hd : List HdRow)
    (cip : List CipRow) (unitids : List Int) (r : ResearchRow)
    (hr : r ∈ transform df hd cip unitids) :
    r.cip2_title.isSome = true ∧ r.cip6_title.isSome = true ∧
      (r.is_cip6 = false →
        r.cip6_title = some "Not a CIP6 program (aggregate / unclassified)".data) := by
  simp only [transform] at hr
  rw [List.mem_map] at hr
  obtain ⟨t, ht, hrt⟩ := hr
  subst hrt
  refine ⟨rfl, rfl, ?_⟩
  intro hflag
  have hm := leftJoinOpt_mem ht
  rcases hm.2 with hnone | ⟨p, hp, hkey, hsome⟩
  · show some (t.2.getD _) = _
    rw [hnone]
    rfl
  · exfalso
    have hpat : isCip6Chars p.1 = true := (List.mem_filter.mp hp).2
    have hcode : t.1.1.cipcode = some p.1 := hkey
    simp only [hcode] at hflag
    rw [hpat] at hflag
    cases hflag

theorem C4_titles_never_missing_witness :
    scnRow ∈ transform scnDf scnHd scnCip BIGTEN_UNITIDS ∧
    scnRow.cip2_title.isSome = true ∧ scnRow.cip6_title.isSome = true :=
  ⟨by decide,
   (C4_titles_never_missing scnDf scnHd scnCip BIGTEN_UNITIDS scnRow (by decide)).1,
   (C4_titles_never_missing scnDf scnHd scnCip BIGTEN_UNITIDS scnRow (by decide)).2.1⟩

/-- C6.  In every transformed row the `is_cip6` flag is true exactly
when the normalized code is present and fully matches `\d{2}\.\d{4}`;
in particular a missing code gives a false flag. -/
theorem C6_is_cip6_iff (df : List CompletionRow) (hd : List HdRow)
    (cip : List CipRow) (unitids : List Int) (r : ResearchRow)
    (hr : r ∈ transform df hd cip unitids) :
    (r.is_cip6 = true ↔ ∃ s, r.cipcode = some s ∧ isCip6Chars s = true) ∧
      (r.cipcode = none → r.is_cip6 = false) := by
  simp only [transform] at hr
  rw [List.mem_map] at hr
  obtain ⟨t, ht, hrt⟩ := hr
  subst hrt
  cases hc : t.1.1.cipcode with
  | none =>
    constructor
    · simp [hc]
    · intro _
      simp [hc]
  | some s =>
    constructor
    · simp [hc]
    · intro hnone
      simp only [hc] at hnone
      cases hnone

theorem C6_is_cip6_iff_witness :
    scnRow ∈ transform scnDf scnHd scnCip BIGTEN_UNITIDS ∧
    (scnRow.is_cip6 = true ↔ ∃ s, scnRow.cipcode = some s ∧ isCip6Chars s = true) :=
  ⟨by decide, (C6_is_cip6_iff scnDf scnHd scnCip BIGTEN_UNITIDS scnRow (by decide)).1⟩

/-! ## Claim C5: guardrails gate the output write -/

/-- C5.  With the allow-list loaded, if any of the three guardrails
fails on the transformed table then `build` returns an error (no output
is written), and whenever `build` returns an output it is the
transformed table with all three guardrails passing. -/
theorem C5_guardrails_gate_output (df : List CompletionRow) (hd : List HdRow)
    (cip : List CipRow) (allow : AllowArg) (ids : List Int)
    (hload : load_bigten_unitids allow = .ok ids) :
    ((nInst (transform df hd cip ids) ≠ 18 ∨
        missingCip2Count (transform df hd cip ids) ≠ 0 ∨
        missingCip6TrueCount (transform df hd cip ids) ≠ 0) →
      ∃ e, build df hd cip allow = .error e) ∧
    (∀ res, build df hd cip allow = .ok res →
      res = transform df hd cip ids ∧ nInst res = 18 ∧
        missingCip2Count res = 0 ∧ missingCip6TrueCount res = 0) := by
  have hb : build df hd cip allow =
      (if nInst (transform df hd cip ids) ≠ 18 then
        Except.error ("Expected 18 Big Ten institutions, got ".data ++
          natDigits (nInst (transform df hd cip ids)))
      else if missingCip2Count (transform df hd cip ids) ≠ 0 then
        Except.error ("Unexpected missing cip2_title count: ".data ++
          natDigits (missingCip2Count (transform df hd cip ids)))
      else if missingCip6TrueCount (transform df hd cip ids) ≠ 0 then
        Except.error ("Missing cip6_title for true CIP6 codes: ".data ++
          natDigits (missingCip6TrueCount (transform df hd cip ids)))
      else .ok (transform df hd cip ids)) := by
    unfold build
    rw [hload]
  rw [hb]
  constructor
  · intro h
    by_cases h1 : nInst (transform df hd cip ids) ≠ 18
    · exact ⟨_, by rw [if_pos h1]⟩
    · by_cases h2 : missingCip2Count (transform df hd cip ids) ≠ 0
      · exact ⟨_, by rw [if_neg h1, if_pos h2]⟩
      · have h3 : missingCip6TrueCount (transform df hd cip ids) ≠ 0 := by tauto
        exact ⟨_, by rw [if_neg h1, if_neg h2, if_pos h3]⟩
  · intro res hres
    by_cases h1 : nInst (transform df hd cip ids) ≠ 18
    · rw [if_pos h1] at hres
      cases hres
    · rw [if_neg h1] at hres
      by_cases h2 : missingCip2Count (transform df hd cip ids) ≠ 0
      · rw [if_pos h2] at hres
        cases hres
      · rw [if_neg h2] at hres
        by_cases h3 : missingCip6TrueCount (transform df hd cip ids) ≠ 0
        · rw [if_pos h3] at hres
          cases hres
        · rw [if_neg h3] at hres
          cases hres
          push_neg at h1 h2 h3
          exact ⟨rfl, h1, h2, h3⟩

theorem C5_guardrails_gate_output_witness :
    (∃ e, build scnDf scnHd scnCip AllowArg.noPath = .error e) ∧
    (nInst (transform fullDf scnHd scnCip BIGTEN_UNITIDS) = 18 ∧
      missingCip2Count (transform fullDf scnHd scnCip BIGTEN_UNITIDS) = 0 ∧
      missingCip6TrueCount (transform fullDf scnHd scnCip BIGTEN_UNITIDS) = 0) :=
  ⟨(C5_guardrails_gate_output scnDf scnHd scnCip AllowArg.noPath BIGTEN_UNITIDS rfl).1
      (Or.inl (by decide)),
   ((C5_guardrails_gate_output fullDf scnHd scnCip AllowArg.noPath BIGTEN_UNITIDS rfl).2
      (transform fullDf scnHd scnCip BIGTEN_UNITIDS) (by rfl)).2⟩

/-! ## Claims C8, C9: the allow-list loader -/

/-- C8.  The loader returns the embedded 18-identifier default, in its
embedded order, when no path is given, when the path does not exist, or
when integer coercion of the identifier column leaves nothing; and it
never returns an empty allow-list. -/
theorem C8_loader_default_fallback :
    load_bigten_unitids .noPath = .ok BIGTEN_UNITIDS ∧
    load_bigten_unitids .missingFile = .ok BIGTEN_UNITIDS ∧
    (∀ f vals,
      ((getColumn f "UNITID".data).orElse fun _ => getColumn f "unitid".data) = some vals →
      coerceIds vals = [] →
      load_bigten_unitids (.file f) = .ok BIGTEN_UNITIDS) ∧
    (∀ a l, load_bigten_unitids a = .ok l → l ≠ []) := by
  refine ⟨rfl, rfl, ?_, ?_⟩
  · intro f vals hcol hco
    simp [load_bigten_unitids, hcol, hco]
  · intro a l hl
    cases a with
    | noPath =>
      cases hl
      decide
    | missingFile =>
      cases hl
      decide
    | file f =>
      simp only [load_bigten_unitids] at hl
      cases hcol : (getColumn f "UNITID".data).orElse fun _ => getColumn f "unitid".data with
      | none =>
        rw [hcol] at hl
        cases hl
      | some vals =>
        rw [hcol] at hl
        cases hl
        by_cases hi : (coerceIds vals).isEmpty
        · rw [if_pos hi]
          decide
        · rw [if_neg hi]
          simpa using hi

def emptyIdsFrame : AllowFrame := ⟨[("UNITID".data, [.vStr "abc".data])]⟩

theorem C8_loader_default_fallback_witness :
    load_bigten_unitids (.file emptyIdsFrame) = .ok BIGTEN_UNITIDS ∧
    BIGTEN_UNITIDS ≠ [] :=
  ⟨C8_loader_default_fallback.2.2.1 emptyIdsFrame [.vStr "abc".data] (by decide) (by decide),
   C8_loader_default_fallback.2.2.2 .noPath BIGTEN_UNITIDS C8_loader_default_fallback.1⟩

/-- C9.  If the allow-list file exists but has neither a column named
exactly "UNITID" nor one named exactly "unitid", the loader raises the
schema error and `build` aborts with it, writing no output. -/
theorem C9_missing_column_aborts (f : AllowFrame)
    (h1 : getColumn f "UNITID".data = none) (h2 : getColumn f "unitid".data = none) :
    load_bigten_unitids (.file f) =
      .error "Big Ten UNITID file missing UNITID column".data ∧
    (∀ df hd cip, build df hd cip (.file f) =
      .error "Big Ten UNITID file missing UNITID column".data) := by
  have hl : load_bigten_unitids (.file f) =
      .error "Big Ten UNITID file missing UNITID column".data := by
    simp [load_bigten_unitids, h1, h2, Option.orElse]
  exact ⟨hl, fun df hd cip => by simp [build, hl]⟩

def wrongCaseFrame : AllowFrame := ⟨[("Unitid".data, [.vNum ⟨151351, 0⟩])]⟩

theorem C9_missing_column_aborts_witness :
    getColumn wrongCaseFrame "UNITID".data = none ∧
    getColumn wrongCaseFrame "unitid".data = none ∧
    load_bigten_unitids (.file wrongCaseFrame) =
      .error "Big Ten UNITID file missing UNITID column".data :=
  ⟨by decide, by decide,
   (C9_missing_column_aborts wrongCaseFrame (by decide) (by decide)).1⟩

/-! ## Claim C10: float-parseable inputs always get a dotted code -/

theorem digitChar_ne_dot (d : Nat) : digitChar d ≠ '.' := by
  unfold digitChar
  split <;> decide

theorem natDigitsAux_no_dot (fuel : Nat) : ∀ n c, c ∈ natDigitsAux fuel n → c ≠ '.' := by
  induction fuel with
  | zero =>
    intro n c h
    simp [natDigitsAux] at h
  | succ fu ih =>
    intro n c h
    rw [natDigitsAux] at h
    by_cases hn : n = 0
    · rw [if_pos hn] at h
      simp at h
    · rw [if_neg hn] at h
      rcases List.mem_append.mp h with h' | h'
      · exact ih _ _ h'
      · rw [List.mem_singleton] at h'
        exact h' ▸ digitChar_ne_dot n

theorem natDigits_no_dot (n : Nat) : '.' ∉ natDigits n := by
  intro h
  unfold natDigits at h
  by_cases hn : n = 0
  · rw [if_pos hn] at h
    simp at h
  · rw [if_neg hn] at h
    exact natDigitsAux_no_dot (n + 1) n '.' h rfl

theorem fmt4_shape (d : Dec) :
    ∃ pre frac4, fmt4 d = pre ++ '.' :: frac4 ∧ frac4.length = 4 ∧ '.' ∉ pre := by
  unfold fmt4
  by_cases hn : fmt4Scaled d < 0
  · refine ⟨'-' :: natDigits ((fmt4Scaled d).natAbs / 10000),
      fracDigits4 (fmt4Scaled d).natAbs, ?_, rfl, ?_⟩
    · rw [if_pos hn]
      rfl
    · intro h
      rcases List.mem_cons.mp h with h' | h'
      · cases h'
      · exact natDigits_no_dot _ h'
  · exact ⟨natDigits ((fmt4Scaled d).natAbs / 10000),
      fracDigits4 (fmt4Scaled d).natAbs, by rw [if_neg hn], rfl, natDigits_no_dot _⟩

theorem mem_padZeros (c : Char) (w : Nat) (l : List Char) (h : c ∈ padZeros w l) :
    c = '0' ∨ c ∈ l := by
  unfold padZeros at h
  rcases List.mem_append.mp h with h' | h'
  · exact Or.inl (List.eq_of_mem_replicate h')
  · exact Or.inr h'

theorem isDig_cases (ch : Char) (h : isDig ch = true) :
    ch = '0' ∨ ch = '1' ∨ ch = '2' ∨ ch = '3' ∨ ch = '4' ∨
      ch = '5' ∨ ch = '6' ∨ ch = '7' ∨ ch = '8' ∨ ch = '9' := by
  unfold isDig at h
  simp only [Bool.or_eq_true, beq_iff_eq] at h
  tauto

theorem mem_pyZfill (c : Char) (w : Nat) (l : List Char) (h : c ∈ pyZfill w l) :
    c = '0' ∨ c ∈ l := by
  cases l with
  | nil => exact Or.inl (List.eq_of_mem_replicate (by simpa [pyZfill, padZeros] using h))
  | cons c0 rest =>
    simp only [pyZfill] at h
    by_cases hs : c0 = '-' ∨ c0 = '+'
    · rw [if_pos hs] at h
      rcases List.mem_cons.mp h with h' | h'
      · exact Or.inr (h' ▸ List.Mem.head rest)
      · rcases mem_padZeros c (w - 1) rest h' with h0 | hmem
        · exact Or.inl h0
        · exact Or.inr (List.Mem.tail c0 hmem)
    · rw [if_neg hs] at h
      exact mem_padZeros c w (c0 :: rest) h

theorem take_four_of_four (a b c d : Char) (rest : List Char) :
    (a :: b :: c :: d :: rest).take 4 = [a, b, c, d] := by
  simp [List.take_succ_cons]

theorem cipSplitCombine_fmt4_shape (d : Dec) :
    ∃ pre frac4, cipSplitCombine (fmt4 d) = pre ++ '.' :: frac4 ∧
      frac4.length = 4 ∧ '.' ∉ pre := by
  obtain ⟨p0, f4, hf, hlen, hnd⟩ := fmt4_shape d
  rw [hf]
  unfold cipSplitCombine
  rw [pySplitDot_append_dot _ _ hnd]
  refine ⟨pyZfill 2 p0, (f4 ++ "0000".data).take 4, rfl, ?_, ?_⟩
  · match f4, hlen with
    | [a, b, c, e4], _ => simp [take_four_of_four]
  · intro hc
    rcases mem_pyZfill _ _ _ hc with h0 | hmem
    · cases h0
    · exact hnd hmem

/-- A character that lower-cases to `n` cannot begin a float literal. -/
theorem lowerN_props (ch : Char) (h : asciiLower ch = 'n') :
    ch ≠ '+' ∧ ch ≠ '-' ∧ ch ≠ '.' ∧ isDig ch = false := by
  unfold asciiLower at h
  by_cases hAZ : 'A' ≤ ch ∧ ch ≤ 'Z'
  · refine ⟨?_, ?_, ?_, ?_⟩
    · rintro rfl; exact absurd hAZ.1 (by decide)
    · rintro rfl; exact absurd hAZ.1 (by decide)
    · rintro rfl; exact absurd hAZ.1 (by decide)
    · cases hd : isDig ch
      · rfl
      · exfalso
        rcases isDig_cases ch hd with rfl | rfl | rfl | rfl | rfl | rfl | rfl | rfl | rfl | rfl <;>
          exact absurd hAZ.1 (by decide)
  · rw [if_neg hAZ] at h
    subst h
    exact ⟨by decide, by decide, by decide, by decide⟩

/-- A string whose lower-casing is the literal text "nan" does not
parse as a float. -/
theorem lower_nan_not_float (t : List Char) (hl : pyLower t = "nan".data) :
    pyParseFloat t = none := by
  cases t with
  | nil => simp [pyLower] at hl
  | cons a rest =>
    have ha : asciiLower a = 'n' := by
      have := congrArg List.head? hl
      simpa [pyLower] using this
    obtain ⟨hp, hm, hdot, hnd⟩ := lowerN_props a ha
    have hsign : pySign (a :: rest) = (1, a :: rest) := by
      simp [pySign, hp, hm]
    have hsd : splitDigits (a :: rest) = ([], a :: rest) := by
      simp [splitDigits, List.takeWhile_cons, List.dropWhile_cons, hnd]
    simp [pyParseFloat, hsign, hsd, hdot]

/-- The inputs the implicit claim ranges over: values that parse as a
floating-point number. -/
def floatParseable : PyVal → Bool
  | .vNone => false
  | .vNum _ => true
  | .vStr s => (pyParseFloat (pyStrip s)).isSome

theorem dot_mem_cipSplitCombine (t : List Char) (h : '.' ∈ t) :
    '.' ∈ cipSplitCombine t := by
  unfold cipSplitCombine
  rw [pySplitDot_eq]
  simp [h]

/-- C10 (counterexample).  The integer-valued CIP code 100 parses as a
float and formats to "100.0000", yet every resulting output row of a
successful build is flagged `is_cip6 = false` — the claimed consequence
"every such row is flagged true" fails. -/
theorem C10_integer_code_counterexample :
    floatParseable (.vNum ⟨100, 0⟩) = true ∧
    format_cipcode (.vNum ⟨100, 0⟩) = some "100.0000".data ∧
    build intCodeDf scnHd scnCip AllowArg.noPath = .ok intCodeOut ∧
    (intCodeOut.map fun r => r.cipcode) = List.replicate 18 (some "100.0000".data) ∧
    (intCodeOut.map fun r => r.is_cip6) = List.replicate 18 false :=
  ⟨by decide, by decide, by rfl, by decide, by decide⟩

/-- C10 (amended).  Every float-parseable input formats to a code with
a dot and exactly four fractional digits — never the bare "NN" form, so
that form only arises from inputs that fail float parsing and contain
no decimal point — but such a row is flagged `is_cip6 = true` only when
the integer part has exactly two digits: 99 maps to "99.0000" (flag
true) while 100 maps to "100.0000" (flag false). -/
theorem C10_float_inputs_amended :
    (∀ v, floatParseable v = true →
      ∃ pre frac4, format_cipcode v = some (pre ++ '.' :: frac4) ∧
        frac4.length = 4 ∧ '.' ∉ pre) ∧
    (∀ s res, format_cipcode (.vStr s) = some res → '.' ∉ res →
      pyParseFloat (pyStrip s) = none ∧ '.' ∉ pyStrip s) ∧
    format_cipcode (.vNum ⟨99, 0⟩) = some "99.0000".data ∧
    isCip6Chars "99.0000".data = true ∧
    format_cipcode (.vNum ⟨100, 0⟩) = some "100.0000".data ∧
    isCip6Chars "100.0000".data = false := by
  refine ⟨?_, ?_, by decide, by decide, by decide, by decide⟩
  · intro v hv
    cases v with
    | vNone => cases hv
    | vNum d =>
      obtain ⟨pre, frac4, hc, hlen, hnd⟩ := cipSplitCombine_fmt4_shape d
      exact ⟨pre, frac4, by rw [format_cipcode, hc], hlen, hnd⟩
    | vStr s0 =>
      simp only [floatParseable] at hv
      obtain ⟨d, hd2⟩ := Option.isSome_iff_exists.mp hv
      have hie : (pyStrip s0).isEmpty = false := by
        cases hE : (pyStrip s0).isEmpty
        · rfl
        · exfalso
          have hnil : pyStrip s0 = [] := by simpa using hE
          rw [hnil] at hd2
          cases hd2
      have hnn : ¬ pyLower (pyStrip s0) = "nan".data := by
        intro hlow
        rw [lower_nan_not_float _ hlow] at hd2
        cases hd2
      obtain ⟨pre, frac4, hc, hlen, hnd⟩ := cipSplitCombine_fmt4_shape d
      refine ⟨pre, frac4, ?_, hlen, hnd⟩
      simp [format_cipcode, hie, hnn, hd2, hc]
  · intro s res hres hnd
    by_cases hE : (pyStrip s).isEmpty
    · simp [format_cipcode, hE] at hres
    · by_cases hN : pyLower (pyStrip s) = "nan".data
      · simp [format_cipcode, hE, hN] at hres
      · cases hp : pyParseFloat (pyStrip s) with
        | some d =>
          exfalso
          have : res = cipSplitCombine (fmt4 d) := by
            simp [format_cipcode, hE, hN, hp] at hres
            exact hres.symm
          obtain ⟨pre, frac4, hc, _, _⟩ := cipSplitCombine_fmt4_shape d
          apply hnd
          rw [this, hc]
          exact List.mem_append.mpr (Or.inr (List.Mem.head _))
        | none =>
          refine ⟨rfl, ?_⟩
          intro hdot
          apply hnd
          have : res = cipSplitCombine (pyStrip s) := by
            simp [format_cipcode, hE, hN, hp] at hres
            exact hres.symm
          rw [this]
          exact dot_mem_cipSplitCombine _ hdot

theorem C10_float_inputs_amended_witness :
    (∃ pre frac4, format_cipcode (.vNum ⟨99, 0⟩) = some (pre ++ '.' :: frac4) ∧
      frac4.length = 4 ∧ '.' ∉ pre) ∧
    (pyParseFloat (pyStrip "abc".data) = none ∧ '.' ∉ pyStrip "abc".data) :=
  ⟨C10_float_inputs_amended.1 (.vNum ⟨99, 0⟩) (by decide),
   C10_float_inputs_amended.2.1 "abc".data "abc".data (by decide) (by decide)⟩
